import Mathlib

/-!
Shallow embedding of the gdt-kube assertion evaluation engine, the
partial-structural document comparator, and the retry/poll controller,
translated from the Go source (`assertions.go` / `compare.go` / `eval.go`
in package `kube`).

Design of the embedding:
* Go dynamic document values (`interface\x7b\x7d` trees produced by YAML/JSON
  parsing) are modelled by the inductive `GoVal`.  Go maps are modelled as
  association lists; Go map iteration order is modelled as list order (Go's
  order is unspecified, so ordered statements quantify over one order);
  well-formed documents have pairwise-distinct keys (`wfB`).
  Modelled dynamic types: maps, slices, `int`, `string`, `bool`,
  `float64` and nil.  A `float64` (`GoFloat`) is NaN, a finite value
  (represented by the rational it denotes, identifying +0 and -0 exactly
  as Go `==` does) or a signed infinity; the `reflect.DeepEqual` fallback
  on two floats uses Go `==`, under which NaN is unequal to every value
  including itself.  Unsigned and complex values are not modelled.
* Machine integers (`int`, status codes) are modelled as `Int`.
* The mutable `assertions` struct is modelled by explicit state passing
  (`AState`); every Go method that mutates the struct becomes a function
  `AState → Bool × AState`.
* The external payload-assertion engine (`gdtjson`) is opaque to this
  repository; it is modelled as a function field carried by the descriptor.
* File reading / YAML parsing used to resolve a string-valued `matches`
  field is external; it is modelled as an explicit resolver argument
  `strRes : String → List (String × GoVal)`.
-/

namespace GdtKube

/-- A Go `float64` value as the comparator observes it: NaN (any NaN bit
pattern), a finite value represented by the rational it denotes (+0 and
-0 denote the same rational 0, matching Go `==`), or a signed
infinity. -/
inductive GoFloat where
  | nan
  | finite (q : ℚ)
  | inf (neg : Bool)
deriving DecidableEq, Repr

/-- Go `==` on two `float64` values (what `reflect.DeepEqual` applies to
floats): NaN compares unequal to everything, itself included; other
values compare by the value they denote. -/
def goFloatEq : GoFloat → GoFloat → Bool
  | .nan, _ => false
  | _, .nan => false
  | .finite q, .finite r => q == r
  | .inf a, .inf b => a == b
  | _, _ => false

/-- A Go dynamic value as produced by YAML/JSON unmarshalling. -/
inductive GoVal where
  | vmap (entries : List (String × GoVal))
  | vlist (items : List GoVal)
  | vint (n : Int)
  | vstr (s : String)
  | vbool (b : Bool)
  | vfloat (f : GoFloat)
  | vnull

/-- Go `%T` rendering of the modelled dynamic types (used in the
"non-comparable types" difference message). -/
def typeName : GoVal → String
  | .vmap _ => "map[string]interface \x7b\x7d"
  | .vlist _ => "[]interface \x7b\x7d"
  | .vint _ => "int"
  | .vstr _ => "string"
  | .vbool _ => "bool"
  | .vfloat _ => "float64"
  | .vnull => "<nil>"

/-- Go `%v` rendering of scalar values (the difference messages produced by
the comparator only ever render scalars: maps and slices are compared
structurally before any value message is built). -/
def showVal : GoVal → String
  | .vmap _ => "map"
  | .vlist _ => "list"
  | .vint n => toString n
  | .vstr s => s
  | .vbool b => if b then "true" else "false"
  | .vfloat .nan => "NaN"
  | .vfloat (.finite _) => "float"
  | .vfloat (.inf neg) => if neg then "-Inf" else "+Inf"
  | .vnull => "<nil>"

/-- `typesComparable` from `compare.go`: reflect-kind based comparability.
`int`-kinds are comparable with `int`-kinds and `string`; `string` with
numeric kinds and `string`; every other pair is comparable exactly when the
two dynamic types are equal. -/
def typesComparable : GoVal → GoVal → Bool
  | .vint _, .vint _ => true
  | .vint _, .vstr _ => true
  | .vint _, _ => false
  | .vstr _, .vint _ => true
  | .vstr _, .vstr _ => true
  | .vstr _, _ => false
  | .vmap _, .vmap _ => true
  | .vmap _, _ => false
  | .vlist _, .vlist _ => true
  | .vlist _, _ => false
  | .vbool _, .vbool _ => true
  | .vbool _, _ => false
  | .vfloat _, .vfloat _ => true
  | .vfloat _, _ => false
  | .vnull, .vnull => true
  | .vnull, _ => false

/-- Digit-accumulator for `strconv.Atoi`: consumes decimal digits, `none` on
any non-digit. -/
def digitsValAux : Nat → List Char → Option Nat
  | acc, [] => some acc
  | acc, c :: rest =>
      if c.isDigit then digitsValAux (acc * 10 + (c.toNat - 48)) rest
      else none

/-- `strconv.Atoi` from the Go standard library as used by the comparator:
optional sign, one or more decimal digits, value must fit in a 64-bit
signed integer; `none` models a non-nil parse error. -/
def goAtoi (s : String) : Option Int :=
  match s.data with
  | [] => none
  | c :: rest =>
    let ds := if c == '-' || c == '+' then rest else c :: rest
    match ds with
    | [] => none
    | _ =>
      match digitsValAux 0 ds with
      | none => none
      | some n =>
        if c == '-' then
          if n ≤ 2 ^ 63 then some (-(n : Int)) else none
        else
          if n ≤ 2 ^ 63 - 1 then some (n : Int) else none

/-- `strconv.Itoa`: decimal rendering of a signed integer. -/
def goItoa (n : Int) : String := toString n

/-- Character-list version of `strings.HasPrefix`. -/
def startsWithChars : List Char → List Char → Bool
  | [], _ => true
  | _ :: _, [] => false
  | c :: cs, d :: ds => c == d && startsWithChars cs ds

/-- Character-list substring search. -/
def hasSubChars (sub : List Char) : List Char → Bool
  | [] => sub.isEmpty
  | c :: rest => startsWithChars sub (c :: rest) || hasSubChars sub rest

/-- `strings.Contains s sub` from the Go standard library. -/
def strContains (s sub : String) : Bool := hasSubChars sub.data s.data

/-- Go map lookup `m[k]` on the association-list model: the first binding
wins (well-formed documents have distinct keys). -/
def mapGet : List (String × GoVal) → String → Option GoVal
  | [], _ => none
  | (k, v) :: rest, key => if k = key then some v else mapGet rest key

/-- Difference message for two scalar values at a field path. -/
def valDiffMsg (fp : String) (m s : GoVal) : String :=
  fp ++ " had different values. expected " ++ showVal m ++ " but found " ++ showVal s

mutual
/-- `collectFieldDifferences` from `compare.go`: recursive comparison of a
match (expected) value against a subject value at a field path, returning
the ordered list of difference messages appended to the delta. -/
def collect (fp : String) (m s : GoVal) : List String :=
  if !typesComparable m s then
    [fp ++ " non-comparable types: " ++ typeName m ++ " and " ++ typeName s ++ "."]
  else
    match m, s with
    | .vmap mm, .vmap sm => collectEntries fp mm sm
    | .vlist ml, .vlist sl =>
        if ml.length ≠ sl.length then
          [fp ++ " had different lengths. expected " ++ toString ml.length ++
            " but found " ++ toString sl.length]
        else collectElems fp 0 ml sl
    | .vint mv, .vint sv =>
        -- both sides integer-like: widen (toInt64) and compare
        if mv ≠ sv then [valDiffMsg fp (.vint mv) (.vint sv)] else []
    | .vint mv, .vstr ss =>
        -- integer-like match, string subject: strconv.Atoi on the subject
        match goAtoi ss with
        | none => [valDiffMsg fp (.vint mv) (.vstr ss)]
        | some sv => if mv ≠ sv then [valDiffMsg fp (.vint mv) (.vstr ss)] else []
    | .vstr mv, .vint si =>
        -- string match, integer subject: strconv.Itoa on the subject and
        -- plain string comparison (the string side is NOT parsed here)
        if mv ≠ goItoa si then [valDiffMsg fp (.vstr mv) (.vint si)] else []
    | .vstr mv, .vstr sv =>
        if mv ≠ sv then [valDiffMsg fp (.vstr mv) (.vstr sv)] else []
    | .vbool mb, .vbool sb =>
        -- falls through the type switch to reflect.DeepEqual
        if mb ≠ sb then [valDiffMsg fp (.vbool mb) (.vbool sb)] else []
    | .vfloat mf, .vfloat sf =>
        -- floats fall through the type switch to reflect.DeepEqual, which
        -- applies Go float64 equality: NaN is unequal even to itself
        if !goFloatEq mf sf then [valDiffMsg fp (.vfloat mf) (.vfloat sf)]
        else []
    | .vnull, .vnull => []  -- reflect.DeepEqual(nil, nil) is true
    | m', s' =>
        -- unreachable: typesComparable rules out every remaining pairing
        [valDiffMsg fp m' s']

/-- The `map[string]interface\x7b\x7d` branch of `collectFieldDifferences`:
only keys present in the match map are checked; a key missing from the
subject is one difference; otherwise recurse with `.key` appended. -/
def collectEntries (fp : String) (mm sm : List (String × GoVal)) : List String :=
  match mm with
  | [] => []
  | (k, mv) :: rest =>
      (match mapGet sm k with
       | none => [fp ++ "." ++ k ++ " not present in subject"]
       | some sv => collect (fp ++ "." ++ k) mv sv) ++ collectEntries fp rest sm

/-- The `[]interface\x7b\x7d` branch of `collectFieldDifferences`: lengths
already matched; recurse element-wise with `[index]` appended. -/
def collectElems (fp : String) (i : Nat) (ml sl : List GoVal) : List String :=
  match ml, sl with
  | mv :: mrest, sv :: srest =>
      collect (fp ++ "[" ++ toString i ++ "]") mv sv ++
        collectElems fp (i + 1) mrest srest
  | _, _ => []
end

/-- `compareResourceToMatchObject` from `compare.go`: compare a resource's
object map against a match map, rooted at `$`. -/
def compareResourceToMatchObject
    (resObj : List (String × GoVal)) (matchObj : List (String × GoVal)) :
    List String :=
  collect "$" (.vmap matchObj) (.vmap resObj)

/-- `matchObjectFromAny` from `compare.go`: a string resolves through the
external file-reader/YAML-parser (`strRes` models `probablyFilePath` +
`ioutil.ReadFile` + `yaml.Unmarshal`); a map is used as-is; anything else
yields the empty map. -/
def matchObjectFromAny (strRes : String → List (String × GoVal)) :
    GoVal → List (String × GoVal)
  | .vstr s => strRes s
  | .vmap l => l
  | _ => []

/-- All keys of an association list are pairwise distinct. -/
def keysNodup : List (String × GoVal) → Bool
  | [] => true
  | (k, _) :: rest => !(mapGet rest k).isSome && keysNodup rest

mutual
/-- Well-formedness of a Go document: map keys pairwise distinct at every
level (Go maps cannot hold duplicate keys). -/
def wfB : GoVal → Bool
  | .vmap l => keysNodup l && wfEntries l
  | .vlist l => wfElems l
  | _ => true

/-- All values of an association list are well-formed documents. -/
def wfEntries : List (String × GoVal) → Bool
  | [] => true
  | (_, v) :: rest => wfB v && wfEntries rest

/-- All elements of a list are well-formed documents. -/
def wfElems : List GoVal → Bool
  | [] => true
  | v :: rest => wfB v && wfElems rest
end

mutual
/-- A document contains no NaN float scalar.  NaN documents are valid Go
values (YAML resolves `.nan` to a float64 NaN) but compare unequal to
themselves under the `reflect.DeepEqual` fallback, so reflexivity of the
comparator holds only on NaN-free documents. -/
def nanFree : GoVal → Bool
  | .vmap l => nanFreeEntries l
  | .vlist l => nanFreeElems l
  | .vfloat .nan => false
  | _ => true

/-- All values of an association list are NaN-free. -/
def nanFreeEntries : List (String × GoVal) → Bool
  | [] => true
  | (_, v) :: rest => nanFree v && nanFreeEntries rest

/-- All elements of a list are NaN-free. -/
def nanFreeElems : List GoVal → Bool
  | [] => true
  | v :: rest => nanFree v && nanFreeElems rest
end

/-- The discriminated error value carried by an action outcome: the
`ErrResourceUnknown` sentinel, a `*apierrors.StatusError` with its
`ErrStatus.Code`, or any other (opaque) error.  `errMsg` is `err.Error()`. -/
inductive ErrVal where
  | resourceUnknown (msg : String)
  | statusError (code : Int) (msg : String)
  | other (msg : String)
deriving DecidableEq, Repr

/-- `err.Error()` for a non-nil error. -/
def errMsg : ErrVal → String
  | .resourceUnknown m => m
  | .statusError _ m => m
  | .other m => m

/-- A Go `error` value: `none` is nil. -/
abbrev KubeErr := Option ErrVal

/-- Rendering of a possibly-nil error (`gdterrors.UnexpectedError` formats
its argument even when it is nil). -/
def errStr : KubeErr → String
  | none => "<nil>"
  | some e => errMsg e

/-- The `r interface\x7b\x7d` field of `assertions`: a nil interface, a non-nil
interface holding a nil `*unstructured.Unstructured` (a Go typed-nil, which
compares non-nil as an interface), a single resource, a typed-nil list, or
a resource list. -/
inductive Subject where
  | nilInterface
  | singleNil
  | single (obj : List (String × GoVal))
  | listNil
  | list (items : List (List (String × GoVal)))

/-- Go `a.r != nil` on the interface value. -/
def rNonNil : Subject → Bool
  | .nilInterface => false
  | _ => true

/-- `hasSubject` from `assertions.go`: the subject is a non-nil single
resource or a non-nil list. -/
def hasSubject : Subject → Bool
  | .single _ => true
  | .list _ => true
  | _ => false

/-- One failure entry appended by `assertions.Fail`, tagged by the error
constructor used at the corresponding `Fail` call site. -/
inductive Failure where
  | raw (e : ErrVal)
  | unexpectedError (msg : String)
  | expectedNotFound (msg : String)
  | notIn (errString : String) (expString : String)
  | notEqualLength (expected : Int) (found : Int)
  | matchesNotEqual (diff : String)
  | jsonFailure (msg : String)
deriving DecidableEq, Repr

/-- Result of the external payload-assertion engine (`gdtjson`):
`ok`, `terminal` and `failures` as reported by the delegate. -/
structure JsonResult where
  ok : Bool
  terminal : Bool
  failures : List String

/-- A payload-assertion descriptor (`*gdtjson.Expect`), modelled together
with the external engine that evaluates it: `engine` maps the marshalled
subject (`none` models nil bytes, when the subject is not a single
resource) to the delegate's verdict. -/
structure JsonExpect where
  engine : Option (List (String × GoVal)) → JsonResult

/-- The `Expect` struct from `assertions.go`: the declared checks for one
action.  `len` is `*int`, `matches` is `interface\x7b\x7d` (`none` is nil). -/
structure Expect where
  error : String
  len : Option Int
  notfound : Bool
  unknown : Bool
  «matches» : Option GoVal
  json : Option JsonExpect

/-- The mutable `assertions` struct: accumulated failures, the terminal
flag, the expectation, the action error and the action result. -/
structure AState where
  failures : List Failure
  terminal : Bool
  exp : Option Expect
  err : KubeErr
  r : Subject

/-- `newAssertions`: failures empty, terminal false (Go zero value). -/
def newAssertions (exp : Option Expect) (err : KubeErr) (r : Subject) : AState :=
  ⟨[], false, exp, err, r⟩

/-- `assertions.Fail`: append one failure. -/
def fail (a : AState) (f : Failure) : AState :=
  { a with failures := a.failures ++ [f] }

/-- `expectsNotFound`: absence is expected when the declared count is
exactly 0 or the not-found flag is set. -/
def expectsNotFound (exp : Expect) : Bool :=
  (exp.len == some 0) || exp.notfound

/-- Lines 219–224 of `errorOK`: any error still set after the swallowing
steps and the substring check is an unexpected error — terminal. -/
def errorOKFinal (a : AState) : Bool × AState :=
  match a.err with
  | some e =>
      (false, { a with failures := a.failures ++ [.unexpectedError (errMsg e)],
                       terminal := true })
  | none => (true, a)

/-- Lines 208–224 of `errorOK`: the expected-error-substring check (guarded
by a non-nil result interface) followed by the final unexpected-error
check. -/
def errorOKAfter (exp : Expect) (a : AState) : Bool × AState :=
  if exp.error != "" && rNonNil a.r then
    match a.err with
    | none =>
        (false, { a with failures := a.failures ++ [.unexpectedError (errStr none)],
                         terminal := true })
    | some e =>
        if !strContains (errMsg e) exp.error then
          (false, fail a (.notIn (errMsg e) exp.error))
        else errorOKFinal a
  else errorOKFinal a

/-- `errorOK` from `assertions.go`: swallow expected errors (the
resource-unknown sentinel when `unknown` is declared; a structured status
error when absence is expected or its code is 404), fail on unexpected
ones, then run the substring and final checks.  `errorOK` is only invoked
by `OK` when an expectation is attached, so it takes the expectation
directly. -/
def errorOK (exp : Expect) (a : AState) : Bool × AState :=
  match a.err with
  | none => errorOKAfter exp a
  | some e =>
    match e with
    | .resourceUnknown _ =>
        if !exp.unknown then
          (false, { a with failures := a.failures ++ [.raw e], terminal := true })
        else
          -- swallow the Unknown error; the subsequent StatusError type
          -- assertion on the now-nil error fails, so control reaches the
          -- substring/final checks with the error cleared
          errorOKAfter exp { a with err := none }
    | .statusError code _ =>
        if !expectsNotFound exp then
          if code != 404 then
            (false, fail a (.expectedNotFound ("got status code " ++ toString code)))
          else errorOKAfter exp { a with err := none }
        else errorOKAfter exp { a with err := none }
    | .other _ => errorOKAfter exp a

/-- `lenOK`: only a non-nil list subject is measured against a declared
count. -/
def lenOK (exp : Expect) (a : AState) : Bool × AState :=
  match exp.len with
  | none => (true, a)
  | some n =>
    match a.r with
    | .list items =>
        if (items.length : Int) ≠ n then
          (false, fail a (.notEqualLength n items.length))
        else (true, a)
    | _ => (true, a)

/-- `matchesOK`: when a match document is declared and a subject is
present, resolve the match object and compare it against a single
resource; each difference is one failure.  A list subject falls through
the (commented-out) list branch and passes. -/
def matchesOK (strRes : String → List (String × GoVal)) (exp : Expect)
    (a : AState) : Bool × AState :=
  match exp.«matches» with
  | none => (true, a)
  | some m =>
    if hasSubject a.r then
      let matchObj := matchObjectFromAny strRes m
      match a.r with
      | .single obj =>
          let delta := compareResourceToMatchObject obj matchObj
          if delta ≠ [] then
            (false, { a with failures := a.failures ++ delta.map .matchesNotEqual })
          else (true, a)
      | _ => (true, a)
    else (true, a)

/-- `jsonOK`: when a payload descriptor is declared and a subject is
present, marshal a single resource (nil bytes otherwise) and delegate;
on delegate failure the delegate's terminal flag is assigned and its
failures are appended. -/
def jsonOK (exp : Expect) (a : AState) : Bool × AState :=
  match exp.json with
  | none => (true, a)
  | some j =>
    if hasSubject a.r then
      let b : Option (List (String × GoVal)) :=
        match a.r with
        | .single obj => some obj
        | _ => none
      let ja := j.engine b
      if !ja.ok then
        (false, { a with terminal := ja.terminal,
                         failures := a.failures ++ ja.failures.map .jsonFailure })
      else (true, a)
    else (true, a)

/-- `OK` from `assertions.go`: with no expectation, a non-nil error is a
terminal unexpected-error failure and a nil error passes; otherwise the
four checks run in order, short-circuiting at the first failure. -/
def OK (strRes : String → List (String × GoVal)) (a : AState) : Bool × AState :=
  match a.exp with
  | none =>
    match a.err with
    | some e =>
        (false, { a with failures := a.failures ++ [.unexpectedError (errMsg e)],
                         terminal := true })
    | none => (true, a)
  | some exp =>
    let r1 := errorOK exp a
    if !r1.1 then (false, r1.2) else
    let r2 := lenOK exp r1.2
    if !r2.1 then (false, r2.2) else
    let r3 := matchesOK strRes exp r2.2
    if !r3.1 then (false, r3.2) else
    let r4 := jsonOK exp r3.2
    if !r4.1 then (false, r4.2) else
    (true, r4.2)

/-- One full evaluation: build a fresh assertions value and run `OK`. -/
def evaluate (strRes : String → List (String × GoVal)) (exp : Option Expect)
    (err : KubeErr) (r : Subject) : Bool × AState :=
  OK strRes (newAssertions exp err r)

/-- The sequence of assertion states after each check actually executed by
`OK` (the execution trace of one attempt), used to state monotonicity of
the terminal flag. -/
def okTrace (strRes : String → List (String × GoVal)) (a : AState) :
    List AState :=
  match a.exp with
  | none => [(OK strRes a).2]
  | some exp =>
    let r1 := errorOK exp a
    if !r1.1 then [r1.2] else
    let r2 := lenOK exp r1.2
    if !r2.1 then [r1.2, r2.2] else
    let r3 := matchesOK strRes exp r2.2
    if !r3.1 then [r1.2, r2.2, r3.2] else
    let r4 := jsonOK exp r3.2
    [r1.2, r2.2, r3.2, r4.2]

/-- One action outcome fed to one poll attempt: the (error, result) pair
returned by the injected client call. -/
structure Outcome where
  err : KubeErr
  r : Subject

/-- One poll attempt: fresh assertions on the attempt's outcome, then
`OK` (this is `doGet`/`doList` followed by `a.OK()` in `runGet`). -/
def attemptEval (strRes : String → List (String × GoVal)) (exp : Option Expect)
    (o : Outcome) : Bool × AState :=
  evaluate strRes exp o.err o.r

/-- The retry loop of `runGet`: each backoff tick produces a fresh outcome
and a fresh evaluation; the loop stops on success or terminal failure, or
when the ticker stops emitting (deadline exhaustion — the outcome list runs
out).  The returned state is the last attempt's assertions value. -/
def pollLoop (strRes : String → List (String × GoVal)) (exp : Option Expect)
    (first : Outcome) (rest : List Outcome) : AState :=
  let r := attemptEval strRes exp first
  if r.1 || r.2.terminal then r.2
  else
    match rest with
    | [] => r.2
    | next :: more => pollLoop strRes exp next more

/-- The failures `runGet` reports to the caller's failure sink on exit.
In the source the loop-local `success := a.OK()` shadows the outer
`success` variable, so the post-loop `if !success` branch always runs and
reports exactly the final attempt's `a.Failures()` (empty when the final
attempt passed). -/
def reportedFailures (strRes : String → List (String × GoVal))
    (exp : Option Expect) (first : Outcome) (rest : List Outcome) :
    List Failure :=
  (pollLoop strRes exp first rest).failures

/-- The outcome of the attempt at which the retry loop stops (the final
attempt): recomputed by the same stopping rule the loop uses. -/
def finalAttempt (strRes : String → List (String × GoVal)) (exp : Option Expect)
    (first : Outcome) (rest : List Outcome) : Outcome :=
  let r := attemptEval strRes exp first
  if r.1 || r.2.terminal then first
  else
    match rest with
    | [] => first
    | next :: more => finalAttempt strRes exp next more


/-! ## Helper lemmas shared by the claim theorems -/

/-- A concrete trivial resolver for the external file/YAML resolution,
used in concrete instantiations. -/
def noRes : String → List (String × GoVal) := fun _ => []

/-- If the final unexpected-error check passes, the state is untouched. -/
theorem errorOKFinal_true (a : AState) (h : (errorOKFinal a).1 = true) :
    (errorOKFinal a).2 = a := by
  cases he : a.err <;> simp [errorOKFinal, he] at h ⊢

/-- If the substring/final section of `errorOK` passes, the state is
untouched. -/
theorem errorOKAfter_true (exp : Expect) (a : AState)
    (h : (errorOKAfter exp a).1 = true) : (errorOKAfter exp a).2 = a := by
  unfold errorOKAfter at h ⊢
  split_ifs at h ⊢ with hg
  · cases he : a.err with
    | none => simp [he] at h
    | some e =>
        simp only [he] at h ⊢
        split_ifs at h ⊢ with hc
        exact errorOKFinal_true a h
  · exact errorOKFinal_true a h

/-- If `errorOK` passes, failures, terminal flag, expectation and result
are unchanged (the error may have been swallowed). -/
theorem errorOK_true (exp : Expect) (a : AState)
    (h : (errorOK exp a).1 = true) :
    (errorOK exp a).2.failures = a.failures ∧
    (errorOK exp a).2.terminal = a.terminal ∧
    (errorOK exp a).2.r = a.r ∧
    (errorOK exp a).2.exp = a.exp := by
  unfold errorOK at h ⊢
  cases he : a.err with
  | none =>
      simp only [he] at h ⊢
      rw [errorOKAfter_true exp a h]
      exact ⟨rfl, rfl, rfl, rfl⟩
  | some e =>
      cases e with
      | resourceUnknown m =>
          simp only [he] at h ⊢
          split_ifs at h ⊢
          rw [errorOKAfter_true exp _ h]
          exact ⟨rfl, rfl, rfl, rfl⟩
      | statusError c m =>
          simp only [he] at h ⊢
          split_ifs at h ⊢
          · rw [errorOKAfter_true exp _ h]
            exact ⟨rfl, rfl, rfl, rfl⟩
          · rw [errorOKAfter_true exp _ h]
            exact ⟨rfl, rfl, rfl, rfl⟩
      | other m =>
          simp only [he] at h ⊢
          rw [errorOKAfter_true exp a h]
          exact ⟨rfl, rfl, rfl, rfl⟩

/-- If the length check passes, the state is untouched. -/
theorem lenOK_true (exp : Expect) (a : AState) (h : (lenOK exp a).1 = true) :
    (lenOK exp a).2 = a := by
  unfold lenOK at h ⊢
  cases hl : exp.len with
  | none => simp [hl]
  | some n =>
      simp only [hl] at h ⊢
      cases hr : a.r <;> simp [hr] at h ⊢
      split at h <;> simp_all

/-- If the structural match check passes, the state is untouched. -/
theorem matchesOK_true (strRes : String → List (String × GoVal)) (exp : Expect)
    (a : AState) (h : (matchesOK strRes exp a).1 = true) :
    (matchesOK strRes exp a).2 = a := by
  unfold matchesOK at h ⊢
  cases hm : exp.«matches» with
  | none => simp [hm]
  | some m =>
      simp only [hm] at h ⊢
      split at h
      · cases hr : a.r <;> simp [hr] at h ⊢
        split at h <;> simp_all
      · simp_all

/-- If the delegated payload check passes, the state is untouched. -/
theorem jsonOK_true (exp : Expect) (a : AState) (h : (jsonOK exp a).1 = true) :
    (jsonOK exp a).2 = a := by
  unfold jsonOK at h ⊢
  cases hj : exp.json with
  | none => simp [hj]
  | some j =>
      simp only [hj] at h ⊢
      split at h
      · split at h <;> simp_all
      · simp_all

/-- If a full evaluation passes, no failure was recorded and the terminal
flag is unchanged. -/
theorem OK_true (strRes : String → List (String × GoVal)) (a : AState)
    (h : (OK strRes a).1 = true) :
    (OK strRes a).2.failures = a.failures ∧
    (OK strRes a).2.terminal = a.terminal := by
  unfold OK at h ⊢
  cases hx : a.exp with
  | none =>
      simp only [hx] at h ⊢
      cases he : a.err <;> simp [he] at h ⊢
  | some exp =>
      simp only [hx] at h ⊢
      by_cases h1 : (errorOK exp a).1 = true
      · obtain ⟨hf1, ht1, hr1, he1⟩ := errorOK_true exp a h1
        simp only [h1] at h ⊢
        by_cases h2 : (lenOK exp (errorOK exp a).2).1 = true
        · have e2 := lenOK_true exp _ h2
          simp only [h2, e2] at h ⊢
          by_cases h3 : (matchesOK strRes exp (errorOK exp a).2).1 = true
          · have e3 := matchesOK_true strRes exp _ h3
            simp only [h3, e3] at h ⊢
            by_cases h4 : (jsonOK exp (errorOK exp a).2).1 = true
            · have e4 := jsonOK_true exp _ h4
              simp only [h4, e4] at h ⊢
              exact ⟨hf1, ht1⟩
            · simp [h4] at h
          · simp [h3] at h
        · simp [h2] at h
      · simp [h1] at h


/-! ## Claim theorems -/

/-- The expectation that declares none of matches, len, error, notfound,
unknown or json. -/
def expNone : Expect := ⟨"", none, false, false, none, none⟩

/-- Decides whether an action error is nil or a structured status error
carrying exactly the not-found code 404. -/
def isNilOr404 : KubeErr → Bool
  | none => true
  | some (.statusError c _) => c == 404
  | some _ => false

/-- C7: with no Expectation attached, a nil action error passes with zero
failures, a non-nil action error yields exactly one failure with the
terminal flag set, and no other outcome is possible. -/
theorem c7_no_expectation (strRes : String → List (String × GoVal))
    (e : KubeErr) (r : Subject) :
    ((OK strRes (newAssertions none e r)).1 = e.isNone) ∧
    ((OK strRes (newAssertions none e r)).2.terminal = e.isSome) ∧
    ((OK strRes (newAssertions none e r)).2.failures =
      match e with
      | none => []
      | some ev => [Failure.unexpectedError (errMsg ev)]) := by
  cases e <;> simp [OK, newAssertions]

/-- C1 counterexample: with an expectation attached that declares none of
matches, len, error, notfound or unknown, a NON-nil action error (a
structured status error with the not-found code 404) nevertheless passes:
the evaluator swallows the 404 even though absence was not declared,
refuting "pass if and only if the action error is nil". -/
theorem c1_counterexample :
    (evaluate noRes (some expNone)
      (some (.statusError 404 "pods not found")) Subject.nilInterface).1 = true ∧
    (some (ErrVal.statusError 404 "pods not found") : KubeErr) ≠ none := by
  constructor
  · decide
  · decide

/-- C1 (amended): with an expectation attached that declares none of
matches, len, error, notfound, unknown or json, the evaluator passes if
and only if the action error is nil OR is a structured status error whose
carried code is exactly the not-found code 404 (which `errorOK` swallows
even though absence was not declared). -/
theorem c1_amended (strRes : String → List (String × GoVal)) (e : KubeErr)
    (r : Subject) :
    (evaluate strRes (some expNone) e r).1 = isNilOr404 e := by
  rcases e with _ | e
  · simp [evaluate, OK, newAssertions, errorOK, errorOKAfter, errorOKFinal,
      lenOK, matchesOK, jsonOK, expNone, isNilOr404]
  · cases e with
    | resourceUnknown m =>
        simp [evaluate, OK, newAssertions, errorOK, expNone, isNilOr404]
    | statusError c m =>
        by_cases hc : c = 404
        · subst hc
          simp [evaluate, OK, newAssertions, errorOK, errorOKAfter,
            errorOKFinal, lenOK, matchesOK, jsonOK, expNone, isNilOr404,
            expectsNotFound]
        · simp [evaluate, OK, newAssertions, errorOK, errorOKAfter,
            errorOKFinal, lenOK, matchesOK, jsonOK, expNone, isNilOr404,
            expectsNotFound, hc]
    | other m =>
        simp [evaluate, OK, newAssertions, errorOK, errorOKAfter,
          errorOKFinal, expNone, isNilOr404]

/-- The expectation declaring only `notfound: true`. -/
def expNotFound : Expect := ⟨"", none, true, false, none, none⟩

/-- C2: when the action error is a structured status error and the
expectation declares absence expected, the error is swallowed regardless
of the carried code — the whole evaluation behaves exactly as if the error
were nil — and in particular an expectation declaring only
`notfound: true` against a structured error with ANY code (including 500)
passes with zero failures. -/
theorem c2_notfound_swallow :
    (∀ (strRes : String → List (String × GoVal)) (exp : Expect) (c : Int)
        (m : String) (r : Subject),
      expectsNotFound exp = true →
      OK strRes (newAssertions (some exp) (some (.statusError c m)) r) =
        OK strRes (newAssertions (some exp) none r)) ∧
    (∀ (strRes : String → List (String × GoVal)) (c : Int) (m : String)
        (r : Subject),
      (evaluate strRes (some expNotFound) (some (.statusError c m)) r).1 = true ∧
      (evaluate strRes (some expNotFound)
        (some (.statusError c m)) r).2.failures = []) := by
  constructor
  · intro strRes exp c m r h
    simp [OK, newAssertions, errorOK, h]
  · intro strRes c m r
    simp [evaluate, OK, newAssertions, errorOK, errorOKAfter, errorOKFinal,
      lenOK, matchesOK, jsonOK, expNotFound, expectsNotFound]

/-- C2 witness: the swallow theorem applied at code 500 with
`notfound: true` on a concrete subject. -/
theorem c2_witness :
    OK noRes (newAssertions (some expNotFound)
      (some (.statusError 500 "Internal error occurred")) (Subject.single [])) =
      OK noRes (newAssertions (some expNotFound) none (Subject.single [])) :=
  c2_notfound_swallow.1 noRes expNotFound 500 "Internal error occurred"
    (Subject.single []) (by decide)

/-- The expectation declaring only an expected error substring. -/
def expErrOnly : Expect := ⟨"xyz", none, false, false, none, none⟩

/-- C3 counterexample: the expectation declares the non-empty substring
"xyz", the action error "boom" survives the swallowing steps and does not
contain the substring, yet — because the action result interface is nil,
which skips the substring check entirely — the evaluator records an
unexpected-error failure with the TERMINAL flag set, refuting
"the evaluator records a failure that is non-terminal". -/
theorem c3_counterexample :
    (evaluate noRes (some expErrOnly) (some (.other "boom"))
      Subject.nilInterface).1 = false ∧
    (evaluate noRes (some expErrOnly) (some (.other "boom"))
      Subject.nilInterface).2.terminal = true ∧
    (evaluate noRes (some expErrOnly) (some (.other "boom"))
      Subject.nilInterface).2.failures = [Failure.unexpectedError "boom"] := by
  refine ⟨?_, ?_, ?_⟩ <;> decide

/-- C3 (amended): when the expectation declares a non-empty expected error
substring, the action result interface is non-nil, and the surviving
(unclassified) error does not contain the substring, the evaluator records
exactly the substring-mismatch failure and the terminal flag stays false
(the attempt is retryable). -/
theorem c3_substring_mismatch (strRes : String → List (String × GoVal))
    (exp : Expect) (msg : String) (r : Subject) (h1 : exp.error ≠ "")
    (h2 : rNonNil r = true) (h3 : strContains msg exp.error = false) :
    (evaluate strRes (some exp) (some (.other msg)) r).1 = false ∧
    (evaluate strRes (some exp) (some (.other msg)) r).2.failures =
      [Failure.notIn msg exp.error] ∧
    (evaluate strRes (some exp) (some (.other msg)) r).2.terminal = false := by
  have hb : (exp.error != "") = true := by
    simp [bne_iff_ne, h1]
  simp [evaluate, OK, newAssertions, errorOK, errorOKAfter, errMsg, fail,
    hb, h2, h3]

/-- C3 witness: the amended theorem at a concrete non-nil subject. -/
theorem c3_witness :
    (evaluate noRes (some expErrOnly) (some (.other "boom"))
      (Subject.single [])).1 = false ∧
    (evaluate noRes (some expErrOnly) (some (.other "boom"))
      (Subject.single [])).2.failures = [Failure.notIn "boom" "xyz"] ∧
    (evaluate noRes (some expErrOnly) (some (.other "boom"))
      (Subject.single [])).2.terminal = false :=
  c3_substring_mismatch noRes expErrOnly "boom" (Subject.single [])
    (by decide) (by decide) (by decide)


/-- An expectation declaring a length of 2 together with an expected error
substring (used to refute C6 as stated). -/
def expLenErr : Expect := ⟨"boom", some 2, false, false, none, none⟩

/-- An expectation declaring a length of 2 together with a declared
matches document and nothing else. -/
def expLenMatches : Expect :=
  ⟨"", some 2, false, false, some (.vmap [("x", .vint 9)]), none⟩

/-- C6 counterexample: a list outcome of exactly the declared count 2 with
no action error nevertheless FAILS when the expectation also declares an
expected error substring (the evaluator fails terminally because an error
was expected but none occurred), refuting "pass if and only if the item
count equals N". -/
theorem c6_counterexample :
    (([[], []] : List (List (String × GoVal))).length : Int) = 2 ∧
    expLenErr.len = some 2 ∧
    (evaluate noRes (some expLenErr) none (Subject.list [[], []])).1 = false ∧
    (evaluate noRes (some expLenErr) none
      (Subject.list [[], []])).2.terminal = true := by
  refine ⟨by decide, by decide, by decide, by decide⟩

/-- C6 (amended): for a list outcome with no action error and a declared
expected count N, provided the expectation declares no expected-error
substring and no delegated JSON assertion (each of which can
independently fail the evaluation), the evaluation passes if and only if
the item count equals N; when it differs, exactly one non-terminal
length-mismatch failure is recorded and no structural-match failures,
even when a matches document is also declared. -/
theorem c6_len_check (strRes : String → List (String × GoVal)) (exp : Expect)
    (n : Int) (items : List (List (String × GoVal)))
    (h1 : exp.len = some n) (h2 : exp.error = "") (h3 : exp.json = none) :
    ((evaluate strRes (some exp) none (Subject.list items)).1 = true ↔
      (items.length : Int) = n) ∧
    ((items.length : Int) ≠ n →
      (evaluate strRes (some exp) none (Subject.list items)).2.failures =
        [Failure.notEqualLength n items.length] ∧
      (evaluate strRes (some exp) none
        (Subject.list items)).2.terminal = false) := by
  have hb : (exp.error != "") = false := by simp [h2]
  by_cases hlen : (items.length : Int) = n
  · constructor
    · simp [evaluate, OK, newAssertions, errorOK, errorOKAfter, errorOKFinal,
        lenOK, matchesOK, jsonOK, hb, h1, h3, hlen]
      cases hm : exp.«matches» with
      | none => simp
      | some m => simp [hasSubject]
    · intro hne
      exact absurd hlen hne
  · constructor
    · simp [evaluate, OK, newAssertions, errorOK, errorOKAfter, errorOKFinal,
        lenOK, hb, h1, hlen]
    · intro _
      simp [evaluate, OK, newAssertions, errorOK, errorOKAfter, errorOKFinal,
        lenOK, fail, hb, h1, hlen]

/-- C6 witness: the amended theorem at a declared count 2, a matches
document also declared, and an actual list of 3 items: exactly one
length-mismatch failure, non-terminal, and no structural failures. -/
theorem c6_witness :
    ((evaluate noRes (some expLenMatches) none
        (Subject.list [[], [], []])).1 = true ↔
      (([[], [], []] : List (List (String × GoVal))).length : Int) = 2) ∧
    ((([[], [], []] : List (List (String × GoVal))).length : Int) ≠ 2 →
      (evaluate noRes (some expLenMatches) none
          (Subject.list [[], [], []])).2.failures =
        [Failure.notEqualLength 2 ([[], [], []] :
          List (List (String × GoVal))).length] ∧
      (evaluate noRes (some expLenMatches) none
        (Subject.list [[], [], []])).2.terminal = false) :=
  c6_len_check noRes expLenMatches 2 [[], [], []] rfl rfl rfl

/-- True exactly for the match-document values the resolution understands:
a string or a mapping. -/
def isStrOrMap : GoVal → Bool
  | .vstr _ => true
  | .vmap _ => true
  | _ => false

/-- An expectation declaring only a non-string non-map matches value. -/
def expMatchesInt : Expect := ⟨"", none, false, false, some (.vint 7), none⟩

/-- C10: a declared Matches value that is neither a string nor a map
resolves to the empty match object, and the structural match check against
any single-item outcome then produces zero differences and leaves the
state untouched — it can never fail the evaluation. -/
theorem c10_matches_non_map (strRes : String → List (String × GoVal))
    (m : GoVal) (exp : Expect) (st : AState)
    (obj : List (String × GoVal)) (h1 : isStrOrMap m = false)
    (h2 : exp.«matches» = some m) (h3 : st.r = Subject.single obj) :
    matchObjectFromAny strRes m = [] ∧
    matchesOK strRes exp st = (true, st) := by
  have hres : matchObjectFromAny strRes m = [] := by
    cases m <;> simp_all [isStrOrMap, matchObjectFromAny]
  refine ⟨hres, ?_⟩
  simp [matchesOK, h2, h3, hasSubject, hres, compareResourceToMatchObject,
    collect, typesComparable, collectEntries]

/-- C10 witness: a matches value of integer 7 against a concrete
single-item outcome. -/
theorem c10_witness :
    matchObjectFromAny noRes (.vint 7) = [] ∧
    matchesOK noRes expMatchesInt
      (newAssertions (some expMatchesInt) none
        (Subject.single [("a", .vint 1)])) =
      (true, newAssertions (some expMatchesInt) none
        (Subject.single [("a", .vint 1)])) :=
  c10_matches_non_map noRes (.vint 7) expMatchesInt
    (newAssertions (some expMatchesInt) none (Subject.single [("a", .vint 1)]))
    [("a", .vint 1)] (by decide) rfl rfl

/-- C9: within one evaluation attempt the terminal flag is monotone along
the trace of executed checks — starting from the freshly constructed
assertions value, once some check sets the flag no later executed check
(including the delegated payload check, which assigns the delegate's
terminal value) resets it. -/
theorem c9_terminal_monotone (strRes : String → List (String × GoVal))
    (exp : Option Expect) (e : KubeErr) (r : Subject) :
    List.Chain' (fun x y => x.terminal = true → y.terminal = true)
      (newAssertions exp e r :: okTrace strRes (newAssertions exp e r)) := by
  set a0 := newAssertions exp e r with ha0
  have hterm : a0.terminal = false := rfl
  cases hx : a0.exp with
  | none =>
      simp only [okTrace, hx]
      simp [List.chain'_cons, hterm]
  | some ex =>
      simp only [okTrace, hx]
      by_cases h1 : (errorOK ex a0).1 = true
      · obtain ⟨hf1, ht1, hr1, he1⟩ := errorOK_true ex a0 h1
        have ht1f : (errorOK ex a0).2.terminal = false := by rw [ht1, hterm]
        simp only [h1]
        by_cases h2 : (lenOK ex (errorOK ex a0).2).1 = true
        · have e2 := lenOK_true ex _ h2
          have ht2f : (lenOK ex (errorOK ex a0).2).2.terminal = false := by
            rw [e2, ht1f]
          simp only [h2, e2]
          by_cases h3 : (matchesOK strRes ex (errorOK ex a0).2).1 = true
          · have e3 := matchesOK_true strRes ex _ h3
            have ht3f :
                (matchesOK strRes ex (errorOK ex a0).2).2.terminal = false := by
              rw [e3, ht1f]
            simp only [h3, e3]
            simp [List.chain'_cons, hterm, ht1f]
          · simp only [h3, Bool.not_eq_true] at h3 ⊢
            simp [h3, List.chain'_cons, hterm, ht1f]
        · simp only [h2, Bool.not_eq_true] at h2 ⊢
          simp [h2, List.chain'_cons, hterm, ht1f]
      · simp only [h1, Bool.not_eq_true] at h1 ⊢
        simp [h1, List.chain'_cons, hterm]

/-- C8: on leaving the retry loop, the failures reported to the caller are
exactly the failures of the final attempt's evaluation (earlier attempts'
failures are discarded with their assertions values), and in particular a
non-terminally failing attempt followed by a passing attempt reports zero
failures overall. -/
theorem c8_last_attempt_only :
    (∀ (strRes : String → List (String × GoVal)) (exp : Option Expect)
        (first : Outcome) (rest : List Outcome),
      reportedFailures strRes exp first rest =
        (attemptEval strRes exp (finalAttempt strRes exp first rest)).2.failures) ∧
    (∀ (strRes : String → List (String × GoVal)) (exp : Option Expect)
        (o1 o2 : Outcome),
      (attemptEval strRes exp o1).1 = false →
      (attemptEval strRes exp o1).2.terminal = false →
      (attemptEval strRes exp o2).1 = true →
      reportedFailures strRes exp o1 [o2] = []) := by
  constructor
  · intro strRes exp first rest
    induction rest generalizing first with
    | nil =>
        simp only [reportedFailures, pollLoop, finalAttempt]
        split <;> rfl
    | cons next more ih =>
        simp only [reportedFailures, pollLoop, finalAttempt] at *
        by_cases hs :
            ((attemptEval strRes exp first).1 ||
              (attemptEval strRes exp first).2.terminal) = true
        · simp [hs]
        · simp only [Bool.not_eq_true] at hs
          simp [hs, ih]
  · intro strRes exp o1 o2 hfail hterm hpass
    have hfails :
        (attemptEval strRes exp o2).2.failures =
          (newAssertions exp o2.err o2.r).failures :=
      (OK_true strRes (newAssertions exp o2.err o2.r) hpass).1
    simp [reportedFailures, pollLoop, hfail, hterm, hpass]
    simpa [newAssertions] using hfails

/-- C8 witness: a first attempt failing non-terminally on a length
mismatch followed by a passing attempt reports zero failures. -/
theorem c8_witness :
    reportedFailures noRes (some expLenMatches)
      ⟨none, Subject.list []⟩ [⟨none, Subject.list [[], []]⟩] = [] :=
  c8_last_attempt_only.2 noRes (some expLenMatches)
    ⟨none, Subject.list []⟩ ⟨none, Subject.list [[], []]⟩
    (by decide) (by decide) (by decide)


/-- C4 counterexample: for the pair string-match "02" against integer
subject 2 the widened values agree (parsing "02" yields 2), yet the
comparator reports a difference — in this direction it formats the integer
with Itoa and compares strings instead of parsing the string — refuting
"reporting no difference exactly when the widened values agree". -/
theorem c4_counterexample :
    goAtoi "02" = some 2 ∧
    compareResourceToMatchObject [("n", .vint 2)] [("n", .vstr "02")] ≠ [] := by
  refine ⟨by decide, by decide⟩

/-- C4 (amended): in the integer-match/string-subject direction the
comparator widens the integer and parses the string, a parse failure or a
differing parsed value being exactly one difference; in the
string-match/integer-subject direction the comparator instead formats the
integer in decimal and reports a difference exactly when the strings
differ (so a string with leading zeros or a sign differs from an equal
widened value); concretely, compare({n: 2}, {n: "2"}) yields an empty
diff and compare({n: "2"}, {n: 3}) yields exactly one difference. -/
theorem c4_cross_type_numeric :
    (∀ (fp : String) (m : Int) (s : String),
      (collect fp (.vint m) (.vstr s) = []) ↔ goAtoi s = some m) ∧
    (∀ (fp : String) (s : String) (n : Int),
      (collect fp (.vstr s) (.vint n) = []) ↔ s = goItoa n) ∧
    compareResourceToMatchObject [("n", .vstr "2")] [("n", .vint 2)] = [] ∧
    (compareResourceToMatchObject [("n", .vint 3)] [("n", .vstr "2")]).length
      = 1 := by
  refine ⟨?_, ?_, by decide, by decide⟩
  · intro fp m s
    cases h : goAtoi s with
    | none => simp [collect, typesComparable, h]
    | some k =>
        by_cases hmk : m = k
        · subst hmk
          simp [collect, typesComparable, h]
        · simp [collect, typesComparable, h, hmk]
          exact fun he => hmk he.symm
  · intro fp s n
    by_cases hs : s = goItoa n
    · subst hs
      simp [collect, typesComparable]
    · simp [collect, typesComparable, hs]

/-- C4 witness: the parsing direction applied at match 2, subject "2". -/
theorem c4_witness : collect "$.n" (.vint 2) (.vstr "2") = [] :=
  (c4_cross_type_numeric.1 "$.n" 2 "2").mpr (by decide)

/-- A key present in an association list is found by `mapGet`. -/
theorem mapGet_isSome_of_mem (l : List (String × GoVal))
    (p : String × GoVal) (hp : p ∈ l) : (mapGet l p.1).isSome := by
  induction l with
  | nil => cases hp
  | cons q rest ih =>
      rcases List.mem_cons.mp hp with h | h
      · subst h
        simp [mapGet]
      · by_cases hq : q.1 = p.1
        · obtain ⟨k, v⟩ := q
          simp only at hq
          simp [mapGet, hq]
        · obtain ⟨k, v⟩ := q
          simp only at hq
          simp [mapGet, hq]
          exact ih h

/-- Under pairwise-distinct keys, `mapGet` returns each entry's own
value. -/
theorem mapGet_self (l : List (String × GoVal)) (hnd : keysNodup l = true) :
    ∀ p ∈ l, mapGet l p.1 = some p.2 := by
  induction l with
  | nil => intro p hp; cases hp
  | cons q rest ih =>
      obtain ⟨k, v⟩ := q
      simp only [keysNodup, Bool.and_eq_true] at hnd
      obtain ⟨h1, h2⟩ := hnd
      intro p hp
      rcases List.mem_cons.mp hp with h | h
      · subst h
        simp [mapGet]
      · have hne : k ≠ p.1 := by
          intro he
          have hs := mapGet_isSome_of_mem rest p h
          rw [← he] at hs
          simp [hs] at h1
        simp [mapGet, hne]
        exact ih h2 p h

/-- Members of a well-formed entry list are well-formed. -/
theorem wfEntries_mem (l : List (String × GoVal)) (h : wfEntries l = true) :
    ∀ p ∈ l, wfB p.2 = true := by
  induction l with
  | nil => intro p hp; cases hp
  | cons q rest ih =>
      obtain ⟨k, v⟩ := q
      simp only [wfEntries, Bool.and_eq_true] at h
      intro p hp
      rcases List.mem_cons.mp hp with he | he
      · subst he; exact h.1
      · exact ih h.2 p he

/-- Members of a well-formed element list are well-formed. -/
theorem wfElems_mem (l : List GoVal) (h : wfElems l = true) :
    ∀ v ∈ l, wfB v = true := by
  induction l with
  | nil => intro v hv; cases hv
  | cons q rest ih =>
      simp only [wfElems, Bool.and_eq_true] at h
      intro v hv
      rcases List.mem_cons.mp hv with he | he
      · subst he; exact h.1
      · exact ih h.2 v he

/-- Members of a NaN-free entry list are NaN-free. -/
theorem nanFreeEntries_mem (l : List (String × GoVal))
    (h : nanFreeEntries l = true) : ∀ p ∈ l, nanFree p.2 = true := by
  induction l with
  | nil => intro p hp; cases hp
  | cons q rest ih =>
      obtain ⟨k, v⟩ := q
      simp only [nanFreeEntries, Bool.and_eq_true] at h
      intro p hp
      rcases List.mem_cons.mp hp with he | he
      · subst he; exact h.1
      · exact ih h.2 p he

/-- Members of a NaN-free element list are NaN-free. -/
theorem nanFreeElems_mem (l : List GoVal) (h : nanFreeElems l = true) :
    ∀ v ∈ l, nanFree v = true := by
  induction l with
  | nil => intro v hv; cases hv
  | cons q rest ih =>
      simp only [nanFreeElems, Bool.and_eq_true] at h
      intro v hv
      rcases List.mem_cons.mp hv with he | he
      · subst he; exact h.1
      · exact ih h.2 v he

/-- The map branch of the comparator produces no difference when every
match key resolves to its own value and compares clean. -/
theorem collectEntries_nil (sm : List (String × GoVal)) :
    ∀ (mm : List (String × GoVal)) (fp : String),
      (∀ p ∈ mm, mapGet sm p.1 = some p.2) →
      (∀ p ∈ mm, ∀ fp', collect fp' p.2 p.2 = []) →
      collectEntries fp mm sm = [] := by
  intro mm
  induction mm with
  | nil => intro fp _ _; simp [collectEntries]
  | cons q rest ih =>
      intro fp hget hcol
      obtain ⟨k, v⟩ := q
      have h1 : mapGet sm k = some v := hget ⟨k, v⟩ (List.mem_cons_self _ _)
      have hv := hcol ⟨k, v⟩ (List.mem_cons_self _ _) (fp ++ "." ++ k)
      have hrest := ih fp (fun p hp => hget p (List.mem_cons_of_mem _ hp))
        (fun p hp => hcol p (List.mem_cons_of_mem _ hp))
      simp [collectEntries, h1, hv, hrest]

/-- The sequence branch of the comparator produces no difference when
every element compares clean against itself. -/
theorem collectElems_nil :
    ∀ (l : List GoVal) (fp : String) (i : Nat),
      (∀ v ∈ l, ∀ fp', collect fp' v v = []) →
      collectElems fp i l l = [] := by
  intro l
  induction l with
  | nil => intro fp i _; simp [collectElems]
  | cons q rest ih =>
      intro fp i hcol
      have hq := hcol q (List.mem_cons_self _ _)
      have hrest := ih fp (i + 1)
        (fun v hv => hcol v (List.mem_cons_of_mem _ hv))
      simp [collectElems, hq, hrest]

/-- Reflexivity of the comparator on well-formed NaN-free documents, by
strong induction on size. -/
theorem collect_refl_aux :
    ∀ (n : Nat) (v : GoVal), sizeOf v ≤ n → wfB v = true →
      nanFree v = true → ∀ fp, collect fp v v = [] := by
  intro n
  induction n with
  | zero =>
      intro v hsz
      exfalso
      cases v <;> simp at hsz
  | succ n ih =>
      intro v hsz hwf hnf fp
      cases v with
      | vnull => simp [collect, typesComparable]
      | vint m => simp [collect, typesComparable]
      | vstr s => simp [collect, typesComparable]
      | vbool b => simp [collect, typesComparable]
      | vfloat f =>
          cases f with
          | nan => simp [nanFree] at hnf
          | finite q => simp [collect, typesComparable, goFloatEq]
          | inf b => simp [collect, typesComparable, goFloatEq]
      | vlist l =>
          simp only [wfB] at hwf
          simp only [nanFree] at hnf
          have helem : ∀ v ∈ l, ∀ fp', collect fp' v v = [] := by
            intro v hv fp'
            apply ih v ?_ (wfElems_mem l hwf v hv)
              (nanFreeElems_mem l hnf v hv) fp'
            have h1 : sizeOf v < sizeOf l := List.sizeOf_lt_of_mem hv
            have h2 : sizeOf (GoVal.vlist l) = 1 + sizeOf l := by simp
            omega
          simp [collect, typesComparable]
          exact collectElems_nil l fp 0 helem
      | vmap l =>
          simp only [wfB, Bool.and_eq_true] at hwf
          simp only [nanFree] at hnf
          obtain ⟨hnd, hent⟩ := hwf
          have hget := mapGet_self l hnd
          have hcol : ∀ p ∈ l, ∀ fp', collect fp' p.2 p.2 = [] := by
            intro p hp fp'
            apply ih p.2 ?_ (wfEntries_mem l hent p hp)
              (nanFreeEntries_mem l hnf p hp) fp'
            have h1 : sizeOf p < sizeOf l := List.sizeOf_lt_of_mem hp
            have h2 : sizeOf p.2 < sizeOf p := by
              obtain ⟨x, y⟩ := p
              simp
            have h3 : sizeOf (GoVal.vmap l) = 1 + sizeOf l := by simp
            omega
          simp [collect, typesComparable]
          exact collectEntries_nil l l fp hget hcol

/-- C5 counterexample: the document {a: NaN} is a valid Go document
(YAML resolves `.nan` to a float64 NaN, and Go maps always have distinct
keys, so it is well-formed), yet comparing it against itself reports a
difference: the `reflect.DeepEqual` fallback applies Go float equality,
under which NaN is unequal to itself — refuting "compare(X, X) yields an
empty diff for any document X". -/
theorem c5_counterexample :
    wfB (.vmap [("a", GoVal.vfloat .nan)]) = true ∧
    compareResourceToMatchObject [("a", GoVal.vfloat .nan)]
      [("a", GoVal.vfloat .nan)] ≠ [] := by
  refine ⟨by decide, by decide⟩

/-- C5 (amended): the structural comparator is reflexive on every
well-formed document containing no NaN float scalar — comparing such a
document against itself yields an empty diff. -/
theorem c5_compare_reflexive (obj : List (String × GoVal))
    (h : wfB (.vmap obj) = true) (hn : nanFree (.vmap obj) = true) :
    compareResourceToMatchObject obj obj = [] :=
  collect_refl_aux (sizeOf (GoVal.vmap obj)) (GoVal.vmap obj) le_rfl h hn "$"

/-- C5 witness: reflexivity at a concrete document with nested map, list
and every scalar kind, a non-NaN float included. -/
theorem c5_witness :
    compareResourceToMatchObject
      [("a", .vint 1), ("b", .vmap [("c", .vstr "x")]),
        ("d", .vlist [.vbool true, .vnull]), ("e", .vfloat (.finite 3)),
        ("f", .vfloat (.inf false))]
      [("a", .vint 1), ("b", .vmap [("c", .vstr "x")]),
        ("d", .vlist [.vbool true, .vnull]), ("e", .vfloat (.finite 3)),
        ("f", .vfloat (.inf false))] = [] :=
  c5_compare_reflexive
    [("a", .vint 1), ("b", .vmap [("c", .vstr "x")]),
      ("d", .vlist [.vbool true, .vnull]), ("e", .vfloat (.finite 3)),
      ("f", .vfloat (.inf false))] (by decide) (by decide)

end GdtKube
